import Mathlib

/-!
Shallow embedding of `bluemix/http/transport.go` (TraceLoggingTransport):
a decorator around an HTTP round-tripper that dumps each request and, on
success, each response to a trace logger, with sensitive data redacted.

Modelling conventions:
* Machine text is `String` / `List Char`; bodies are single-use streams
  modelled as content plus a read position.
* The external serializer `httputil.DumpRequest` / `httputil.DumpResponse`
  (Go standard library, not part of this repository) is modelled from its
  documented contract: it renders the request line / status line and the
  headers, optionally followed by the body, and it drains and restores the
  body stream; a possible serialization failure is an explicit oracle input.
* The log sink `trace.Logger` is an abstract state-passing sink; a concrete
  list-of-entries sink instantiates it for the concrete theorems.
* `trace.Sanitize`, `i18n.T` and `terminal.HeaderColor` live in this
  repository but outside the provided source tree; they are modelled from
  the specification (see their doc comments).
* Wall-clock readings are abstract `Nat` nanosecond timestamps supplied as
  inputs (the two `time.Now()` calls of the source).
-/

namespace TraceTransport

/-- `chunkIn p l` : the character list `p` occurs contiguously inside `l`. -/
def chunkIn (p l : List Char) : Prop := ∃ s t, s ++ p ++ t = l

/-- Boolean occurrence check used to decide `chunkIn`. -/
def chunkInB (p l : List Char) : Bool :=
  (List.range (l.length + 1)).any (fun i => p.isPrefixOf (l.drop i))

theorem isPrefixOf_append_self (p t : List Char) : p.isPrefixOf (p ++ t) = true := by
  induction p with
  | nil => simp [List.isPrefixOf]
  | cons c cs ih => simp [List.isPrefixOf, ih]

theorem exists_of_isPrefixOf {p l : List Char} (h : p.isPrefixOf l = true) :
    ∃ t, p ++ t = l := by
  induction p generalizing l with
  | nil => exact ⟨l, rfl⟩
  | cons c cs ih =>
    cases l with
    | nil => simp [List.isPrefixOf] at h
    | cons d ds =>
      simp only [List.isPrefixOf, Bool.and_eq_true, beq_iff_eq] at h
      obtain ⟨t, ht⟩ := ih h.2
      exact ⟨t, by simp [h.1, ht]⟩

theorem chunkIn_iff_chunkInB (p l : List Char) : chunkIn p l ↔ chunkInB p l = true := by
  constructor
  · rintro ⟨s, t, rfl⟩
    simp only [chunkInB, List.any_eq_true, List.mem_range]
    refine ⟨s.length, ?_, ?_⟩
    · simp [List.length_append]; omega
    · rw [List.append_assoc, List.drop_left]
      exact isPrefixOf_append_self p t
  · intro h
    simp only [chunkInB, List.any_eq_true, List.mem_range] at h
    obtain ⟨i, _, hp⟩ := h
    obtain ⟨t, ht⟩ := exists_of_isPrefixOf hp
    exact ⟨l.take i, t, by rw [List.append_assoc, ht, List.take_append_drop]⟩

instance (p l : List Char) : Decidable (chunkIn p l) :=
  decidable_of_iff (chunkInB p l = true) (chunkIn_iff_chunkInB p l).symm

/-- Occurrence of `pat` as a contiguous substring of `s`. -/
def strContains (s pat : String) : Prop := chunkIn pat.data s.data

instance (s pat : String) : Decidable (strContains s pat) := by
  unfold strContains; infer_instance

theorem chunkIn_self (p : List Char) : chunkIn p p := ⟨[], [], by simp⟩

theorem chunkIn_appendL {p a : List Char} (b : List Char) (h : chunkIn p a) :
    chunkIn p (a ++ b) := by
  obtain ⟨s, t, rfl⟩ := h
  exact ⟨s, t ++ b, by simp⟩

theorem chunkIn_appendR {p b : List Char} (a : List Char) (h : chunkIn p b) :
    chunkIn p (a ++ b) := by
  obtain ⟨s, t, rfl⟩ := h
  exact ⟨a ++ s, t, by simp⟩

theorem chunkIn_trans {p q l : List Char} (h1 : chunkIn p q) (h2 : chunkIn q l) :
    chunkIn p l := by
  obtain ⟨s1, t1, rfl⟩ := h1
  obtain ⟨s2, t2, rfl⟩ := h2
  exact ⟨s2 ++ s1, t1 ++ t2, by simp⟩

theorem chunkIn_cons {p l : List Char} (c : Char) (h : chunkIn p l) :
    chunkIn p (c :: l) := by
  obtain ⟨s, t, rfl⟩ := h
  exact ⟨c :: s, t, rfl⟩

theorem not_chunkIn_nil {p : List Char} (hp : p ≠ []) : ¬ chunkIn p [] := by
  rintro ⟨s, t, h⟩
  have := congrArg List.length h
  simp [List.length_append] at this
  exact hp this.2.1

theorem pre_sep {p : List Char} (a : List Char) {c : Char} {b : List Char}
    (hc : c ∉ p) (h : ∃ t, p ++ t = a ++ c :: b) : ∃ t, p ++ t = a := by
  induction p generalizing a with
  | nil => exact ⟨a, rfl⟩
  | cons y p' ih =>
    cases a with
    | nil =>
      obtain ⟨t, ht⟩ := h
      simp only [List.cons_append, List.nil_append, List.cons.injEq] at ht
      exact absurd (ht.1 ▸ List.mem_cons_self y p') hc
    | cons x a' =>
      obtain ⟨t, ht⟩ := h
      simp only [List.cons_append, List.cons.injEq] at ht
      obtain ⟨t', ht'⟩ := ih a' (fun hm => hc (List.mem_cons_of_mem y hm)) ⟨t, ht.2⟩
      exact ⟨t', by simp [ht.1, ht']⟩

theorem chunkIn_cons_elim {p : List Char} {x : Char} {l : List Char}
    (h : chunkIn p (x :: l)) : (∃ t, p ++ t = x :: l) ∨ chunkIn p l := by
  obtain ⟨s, t, hst⟩ := h
  cases s with
  | nil => exact Or.inl ⟨t, by simpa using hst⟩
  | cons y s' =>
    simp only [List.cons_append, List.cons.injEq] at hst
    exact Or.inr ⟨s', t, hst.2⟩

theorem chunk_sep {p : List Char} (a : List Char) {c : Char} {b : List Char}
    (hc : c ∉ p) (h : chunkIn p (a ++ c :: b)) : chunkIn p a ∨ chunkIn p b := by
  induction a with
  | nil =>
    rcases chunkIn_cons_elim (by simpa using h) with hpre | hb
    · cases p with
      | nil => exact Or.inl ⟨[], [], rfl⟩
      | cons y p' =>
        obtain ⟨t, ht⟩ := hpre
        simp only [List.cons_append, List.cons.injEq] at ht
        exact absurd (ht.1 ▸ List.mem_cons_self y p') hc
    · exact Or.inr hb
  | cons x a' ih =>
    rw [List.cons_append] at h
    rcases chunkIn_cons_elim h with hpre | hrest
    · cases p with
      | nil => exact Or.inl ⟨[], x :: a', rfl⟩
      | cons y p' =>
        obtain ⟨t, ht⟩ := hpre
        simp only [List.cons_append, List.cons.injEq] at ht
        obtain ⟨t', ht'⟩ :=
          pre_sep a' (fun hm => hc (List.mem_cons_of_mem y hm)) ⟨t, ht.2⟩
        exact Or.inl ⟨[], t', by simp [ht.1, ht']⟩
    · rcases ih hrest with ha | hb
      · exact Or.inl (chunkIn_cons x ha)
      · exact Or.inr hb

/-- Join a list of lines with the newline separator. -/
def joinNL : List (List Char) → List Char
  | [] => []
  | [l] => l
  | l :: l' :: ls => l ++ '\n' :: joinNL (l' :: ls)

/-- Split a character list at every newline (inverse of `joinNL`). -/
def splitOnNL : List Char → List (List Char)
  | [] => [[]]
  | c :: cs =>
    if c = '\n' then [] :: splitOnNL cs
    else
      match splitOnNL cs with
      | [] => [[c]]
      | l :: ls => (c :: l) :: ls

theorem splitOnNL_ne_nil (cs : List Char) : splitOnNL cs ≠ [] := by
  cases cs with
  | nil => simp [splitOnNL]
  | cons c cs =>
    simp only [splitOnNL]
    by_cases h : c = '\n'
    · simp [h]
    · simp only [if_neg h]
      cases h2 : splitOnNL cs with
      | nil => simp
      | cons l ls => simp

theorem joinNL_splitOnNL (cs : List Char) : joinNL (splitOnNL cs) = cs := by
  induction cs with
  | nil => rfl
  | cons c cs ih =>
    by_cases h : c = '\n'
    · subst h
      simp only [splitOnNL, if_pos rfl]
      rcases hs : splitOnNL cs with _ | ⟨l, ls⟩
      · exact absurd hs (splitOnNL_ne_nil cs)
      · simp only [joinNL]
        rw [hs] at ih
        simp [ih]
    · simp only [splitOnNL, if_neg h]
      rcases hs : splitOnNL cs with _ | ⟨l, ls⟩
      · exact absurd hs (splitOnNL_ne_nil cs)
      · rw [hs] at ih
        cases ls with
        | nil => simp only [joinNL] at ih ⊢; simp [ih]
        | cons l2 ls2 => simp only [joinNL] at ih ⊢; simp [ih]

theorem chunkIn_joinNL_elim {p : List Char} (hp : p ≠ []) (hnl : '\n' ∉ p) :
    ∀ ls : List (List Char), chunkIn p (joinNL ls) → ∃ l ∈ ls, chunkIn p l := by
  intro ls
  induction ls with
  | nil => intro h; exact absurd h (not_chunkIn_nil hp)
  | cons l ls ih =>
    intro h
    cases ls with
    | nil => exact ⟨l, List.mem_singleton_self l, by simpa [joinNL] using h⟩
    | cons l2 ls2 =>
      simp only [joinNL] at h
      rcases chunk_sep l hnl h with hl | hrest
      · exact ⟨l, List.mem_cons_self _ _, hl⟩
      · obtain ⟨l', hmem, hl'⟩ := ih hrest
        exact ⟨l', List.mem_cons_of_mem l hmem, hl'⟩

theorem chunkIn_joinNL_of_mem {l : List Char} :
    ∀ {ls : List (List Char)}, l ∈ ls → chunkIn l (joinNL ls) := by
  intro ls
  induction ls with
  | nil => intro h; exact absurd h (List.not_mem_nil l)
  | cons x ls ih =>
    intro h
    rcases List.mem_cons.mp h with rfl | hmem
    · cases ls with
      | nil => exact chunkIn_self l
      | cons l2 ls2 => exact chunkIn_appendL _ (chunkIn_self l)
    · cases ls with
      | nil => exact absurd hmem (List.not_mem_nil l)
      | cons l2 ls2 =>
        exact chunkIn_appendR _ (chunkIn_cons _ (ih hmem))

/-- A single-use readable body stream: full contents plus a read position.
Reading consumes the stream; `readRemaining` is what a full read would
still deliver. -/
structure ByteStream where
  content : String
  pos : Nat
deriving DecidableEq, Repr

def ByteStream.readRemaining (s : ByteStream) : String := ⟨s.content.data.drop s.pos⟩

/-- The parts of `http.Request` that `transport.go` touches: the request
line data, the header mapping and the body stream. -/
structure Request where
  method : String
  url : String
  headers : List (String × String)
  body : ByteStream
deriving DecidableEq, Repr

/-- ASCII lowercase of one character (header keys are ASCII). -/
def lowerChar (c : Char) : Char :=
  if 65 ≤ c.toNat ∧ c.toNat ≤ 90 then Char.ofNat (c.toNat + 32) else c

def lowerStr (s : String) : String := ⟨s.data.map lowerChar⟩

/-- `http.Header.Get`: case-insensitive lookup, empty string when absent. -/
def headerGet (hs : List (String × String)) (key : String) : String :=
  match hs.find? (fun p => lowerStr p.1 == lowerStr key) with
  | some p => p.2
  | none => ""

def renderHeaders (hs : List (String × String)) : String :=
  hs.foldr (fun p acc => p.1 ++ ": " ++ p.2 ++ "\n" ++ acc) ""

/-- Request line and headers as the serializer renders them. -/
def Request.headText (req : Request) : String :=
  req.method ++ " " ++ req.url ++ " HTTP/1.1\n" ++ renderHeaders req.headers ++ "\n"

/-- The parts of `http.Response` that `transport.go` touches. -/
structure Response where
  status : String
  headers : List (String × String)
  body : ByteStream
deriving DecidableEq, Repr

/-- Status line and headers as the serializer renders them. -/
def Response.headText (res : Response) : String :=
  "HTTP/1.1 " ++ res.status ++ "\n" ++ renderHeaders res.headers ++ "\n"

/-- Model of Go `httputil.DumpRequest` (standard library, external to this
repository), from its documented contract: renders the request line and
headers and, when `includeBody` is set, the body; reading the body drains
the stream and replaces it with a replayable copy of what was read. A
serialization failure of the external serializer is injected through the
`oracle` argument. -/
def DumpRequest (oracle : Option String) (req : Request) (includeBody : Bool) :
    Except String (String × Request) :=
  match oracle with
  | some e => .error e
  | none =>
    if includeBody then
      let content := req.body.readRemaining
      .ok (req.headText ++ content, { req with body := ⟨content, 0⟩ })
    else
      .ok (req.headText, req)

/-- Model of Go `httputil.DumpResponse` (standard library, external to this
repository), same contract as `DumpRequest` on the response side. -/
def DumpResponse (oracle : Option String) (res : Response) (includeBody : Bool) :
    Except String (String × Response) :=
  match oracle with
  | some e => .error e
  | none =>
    if includeBody then
      let content := res.body.readRemaining
      .ok (res.headText ++ content, { res with body := ⟨content, 0⟩ })
    else
      .ok (res.headText, res)

/-- Modelled from the spec: `i18n.T` (repository code outside the provided
source tree), the localized-string lookup taking a template and a key-value
substitution map; per the spec it "may be stubbed with identity formatting
in a test environment", so it is modelled as returning the template. -/
def T (template : String) (_subs : List (String × String)) : String := template

/-- Modelled from the spec: `terminal.HeaderColor` (repository code outside
the provided source tree) decorates a label for display; colorization is
explicitly out-of-scope glue, modelled as the identity. -/
def HeaderColor (s : String) : String := s

/-- Modelled from the spec: the "RFC3339 start/end time" rendering of a
clock reading (`time.Time.Format`, standard library). The claims do not
constrain the date format, only which reading is printed; modelled as an
injective rendering of the abstract timestamp. -/
def rfc3339 (t : Nat) : String := toString t

def privateDataPlaceholder : String := "[PRIVATE DATA HIDDEN]"

/-- Modelled from the spec: the redaction policy's sensitive header fields
("known sensitive fields/patterns (e.g., credential values, tokens)"); the
exact rule set is external policy configuration. -/
def sensitiveKeys : List String :=
  ["Authorization:", "X-Auth-Token:", "X-Auth-Refresh-Token:", "X-Auth-Uaa-Token:",
   "Www-Authenticate:", "Password:", "Passcode:", "Apikey:"]

def matchKey (l : List Char) : Option String :=
  sensitiveKeys.find? (fun k => k.data.isPrefixOf l)

def sanitizeLineChars (l : List Char) : List Char :=
  match matchKey l with
  | some k => k.data ++ (" " ++ privateDataPlaceholder).data
  | none => l

/-- Modelled from the spec: `trace.Sanitize` (repository code outside the
provided source tree) scans the textual dump for known sensitive
fields/patterns and replaces each match with the fixed placeholder
`[PRIVATE DATA HIDDEN]`; modelled line-wise over the dump text. -/
def Sanitize (s : String) : String :=
  ⟨joinNL ((splitOnNL s.data).map sanitizeLineChars)⟩

/-- Model of the C-printf conversion `%.0f` applied to the exact value
`ns / 10^6`: the source computes `end.Sub(start).Seconds()*1000` (elapsed
nanoseconds divided by 10^6) and formats it with `%.0f`, which rounds to
the nearest integer, ties to even. -/
def roundMs (ns : Int) : Int :=
  if 2 * (ns % 1000000) > 1000000 then ns / 1000000 + 1
  else if 2 * (ns % 1000000) < 1000000 then ns / 1000000
  else if (ns / 1000000) % 2 = 0 then ns / 1000000 else ns / 1000000 + 1

def fmtMs (ns : Int) : String := toString (roundMs ns)

/-- The line-oriented log sink `trace.Logger`, abstracted over its state:
`printf` and `println` each emit one formatted write. -/
structure Logger (σ : Type) where
  printf : σ → String → σ
  println : σ → String → σ

/-- Concrete sink recording every emitted entry, in order; `Println`
appends the newline the Go method adds. -/
def listLogger : Logger (List String) :=
  ⟨fun l s => l ++ [s], fun l s => l ++ [s ++ "\n"]⟩

/-- `strings.Contains(req.Header.Get("Content-Type"), "multipart/form-data")`. -/
def isMultipart (req : Request) : Bool :=
  decide (strContains (headerGet req.headers "Content-Type") "multipart/form-data")

/-- The request trace write: format string `"\n%s [%s]\n%s\n"` applied to
the colored localized label, the RFC3339 start time, and the sanitized dump. -/
def reqTraceEntry (start : Nat) (sanitizedDump : String) : String :=
  "\n" ++ HeaderColor (T "REQUEST:" []) ++ " [" ++ rfc3339 start ++ "]\n" ++
    sanitizedDump ++ "\n"

/-- The response trace write: format string `"\n%s [%s] %s %.0fms\n%s\n"`. -/
def respTraceEntry (endT : Nat) (elapsed : String) (sanitizedDump : String) : String :=
  "\n" ++ HeaderColor (T "RESPONSE:" []) ++ " [" ++ rfc3339 endT ++ "] " ++
    HeaderColor (T "Elapsed:" []) ++ " " ++ elapsed ++ "ms\n" ++ sanitizedDump ++ "\n"

def reqDumpErrEntry (e : String) : String :=
  T "An error occurred while dumping request:\n\x7b\x7b.Error\x7d\x7d\n" [("Error", e)]

def respDumpErrEntry (e : String) : String :=
  T "An error occurred while dumping response:\n\x7b\x7b.Error\x7d\x7d\n" [("Error", e)]

/-- The entry `trace.Logger.Println("[MULTIPART/FORM-DATA CONTENT HIDDEN]")`
records in the sink. -/
def markerEntry : String := "[MULTIPART/FORM-DATA CONTENT HIDDEN]" ++ "\n"

/-- `TraceLoggingTransport.dumpRequest` (transport.go lines 53-70). -/
def dumpRequest {σ : Type} (L : Logger σ) (oracle : Option String) (req : Request)
    (start : Nat) (log : σ) : Request × σ :=
  let shouldDisplayBody := ! isMultipart req
  match DumpRequest oracle req shouldDisplayBody with
  | .error e => (req, L.printf log (reqDumpErrEntry e))
  | .ok (dumpedRequest, req') =>
    let log1 := L.printf log (reqTraceEntry start (Sanitize dumpedRequest))
    if shouldDisplayBody then (req', log1)
    else (req', L.println log1 "[MULTIPART/FORM-DATA CONTENT HIDDEN]")

/-- `TraceLoggingTransport.dumpResponse` (transport.go lines 72-89); `endT`
is the `time.Now()` reading taken at its first line. -/
def dumpResponse {σ : Type} (L : Logger σ) (oracle : Option String) (res : Response)
    (start endT : Nat) (log : σ) : Response × σ :=
  match DumpResponse oracle res true with
  | .error e => (res, L.printf log (respDumpErrEntry e))
  | .ok (dumpedResponse, res') =>
    (res', L.printf log
      (respTraceEntry endT (fmtMs ((endT : Int) - (start : Int))) (Sanitize dumpedResponse)))

/-- Outcome of the wrapped round-tripper `r.rt.RoundTrip`: Go returns a
response pointer and an error; on a non-nil error the pointer returned
alongside it is still whatever the wrapped round-tripper produced. -/
inductive RTResult where
  | success (resp : Response)
  | failure (resp : Option Response) (err : String)
deriving DecidableEq, Repr

/-- `TraceLoggingTransport.RoundTrip` (transport.go lines 42-51). The two
`time.Now()` readings are `startT` and `endT`; `rt` is the wrapped
round-tripper; the dump oracles stand for the external serializer's
outcome on this call. -/
def RoundTrip {σ : Type} (L : Logger σ) (rt : Request → RTResult)
    (reqOracle respOracle : Option String) (startT endT : Nat)
    (req : Request) (log : σ) : (Option Response × Option String) × σ :=
  let p := dumpRequest L reqOracle req startT log
  match rt p.1 with
  | .failure r e => ((r, some e), p.2)
  | .success resp =>
    let q := dumpResponse L respOracle resp startT endT p.2
    ((some q.1, none), q.2)

/-- The request object as it stands after `dumpRequest`: untouched on
serializer failure or multipart suppression, body drained-and-restored
otherwise. -/
def reqAfterDump (oracle : Option String) (req : Request) : Request :=
  match oracle with
  | some _ => req
  | none =>
    if isMultipart req then req
    else { req with body := ⟨req.body.readRemaining, 0⟩ }

/-- The response object as it stands after `dumpResponse`. -/
def respAfterDump (oracle : Option String) (res : Response) : Response :=
  match oracle with
  | some _ => res
  | none => { res with body := ⟨res.body.readRemaining, 0⟩ }

theorem dumpRequest_fst {σ : Type} (L : Logger σ) (oracle : Option String)
    (req : Request) (start : Nat) (log : σ) :
    (dumpRequest L oracle req start log).1 = reqAfterDump oracle req := by
  cases oracle with
  | some e => simp [dumpRequest, DumpRequest, reqAfterDump]
  | none =>
    cases h : isMultipart req <;>
      simp [dumpRequest, DumpRequest, reqAfterDump, h]

theorem dumpResponse_fst {σ : Type} (L : Logger σ) (oracle : Option String)
    (res : Response) (start endT : Nat) (log : σ) :
    (dumpResponse L oracle res start endT log).1 = respAfterDump oracle res := by
  cases oracle with
  | some e => simp [dumpResponse, DumpResponse, respAfterDump]
  | none => simp [dumpResponse, DumpResponse, respAfterDump]

theorem readRemaining_pos_zero (s : ByteStream) (h : s.pos = 0) :
    s.readRemaining = s.content := by
  cases s with
  | mk c p =>
    simp only at h
    subst h
    simp [ByteStream.readRemaining]

theorem reqAfterDump_pos_zero (oracle : Option String) (req : Request)
    (h : req.body.pos = 0) : reqAfterDump oracle req = req := by
  cases oracle with
  | some e => rfl
  | none =>
    cases hm : isMultipart req with
    | true => simp [reqAfterDump, hm]
    | false =>
      simp only [reqAfterDump, hm, Bool.false_eq_true, if_false]
      cases req with
      | mk m u hs b =>
        simp only [Request.mk.injEq, true_and]
        cases b with
        | mk c p =>
          simp only at h
          subst h
          simp [ByteStream.readRemaining]

theorem respAfterDump_pos_zero (oracle : Option String) (res : Response)
    (h : res.body.pos = 0) : respAfterDump oracle res = res := by
  cases oracle with
  | some e => rfl
  | none =>
    cases res with
    | mk st hs b =>
      simp only [respAfterDump, Response.mk.injEq, true_and]
      cases b with
      | mk c p =>
        simp only at h
        subst h
        simp [ByteStream.readRemaining]

theorem reqAfterDump_readRemaining (oracle : Option String) (req : Request) :
    (reqAfterDump oracle req).body.readRemaining = req.body.readRemaining := by
  cases oracle with
  | some e => rfl
  | none =>
    cases hm : isMultipart req with
    | true => simp [reqAfterDump, hm]
    | false =>
      simp only [reqAfterDump, hm, Bool.false_eq_true, if_false]
      simp [ByteStream.readRemaining]

theorem respAfterDump_readRemaining (oracle : Option String) (res : Response) :
    (respAfterDump oracle res).body.readRemaining = res.body.readRemaining := by
  cases oracle with
  | some e => rfl
  | none =>
    simp [respAfterDump, ByteStream.readRemaining]

theorem dumpRequest_log_err {σ : Type} (L : Logger σ) (e : String) (req : Request)
    (start : Nat) (log : σ) :
    (dumpRequest L (some e) req start log).2 = L.printf log (reqDumpErrEntry e) := by
  simp [dumpRequest, DumpRequest]

theorem dumpResponse_log_err {σ : Type} (L : Logger σ) (e : String) (res : Response)
    (start endT : Nat) (log : σ) :
    (dumpResponse L (some e) res start endT log).2 = L.printf log (respDumpErrEntry e) := by
  simp [dumpResponse, DumpResponse]

theorem dumpRequest_log_multipart (req : Request) (start : Nat) (log : List String)
    (h : isMultipart req = true) :
    (dumpRequest listLogger none req start log).2 =
      log ++ [reqTraceEntry start (Sanitize req.headText), markerEntry] := by
  simp [dumpRequest, DumpRequest, h, listLogger, markerEntry]

theorem dumpRequest_log_plain (req : Request) (start : Nat) (log : List String)
    (h : isMultipart req = false) :
    (dumpRequest listLogger none req start log).2 =
      log ++ [reqTraceEntry start (Sanitize (req.headText ++ req.body.readRemaining))] := by
  simp [dumpRequest, DumpRequest, h, listLogger]

theorem dumpResponse_log_ok (res : Response) (start endT : Nat) (log : List String) :
    (dumpResponse listLogger none res start endT log).2 =
      log ++ [respTraceEntry endT (fmtMs ((endT : Int) - (start : Int)))
        (Sanitize (res.headText ++ res.body.readRemaining))] := by
  simp [dumpResponse, DumpResponse, listLogger]

@[simp]
theorem sdata_append (a b : String) : (a ++ b).data = a.data ++ b.data := rfl

theorem sanitize_data (d : String) :
    (Sanitize d).data = joinNL ((splitOnNL d.data).map sanitizeLineChars) := rfl

theorem strContains_of_parts (a b c s : String) (h : s = a ++ b ++ c) :
    strContains s b := by
  subst h
  exact ⟨a.data, c.data, by simp⟩

theorem sanitize_placeholder (d : String) (l : List Char) (hl : l ∈ splitOnNL d.data)
    (hk : (matchKey l).isSome) : strContains (Sanitize d) privateDataPlaceholder := by
  obtain ⟨k, hkeq⟩ := Option.isSome_iff_exists.mp hk
  have h1 : chunkIn privateDataPlaceholder.data (sanitizeLineChars l) := by
    simp only [sanitizeLineChars, hkeq]
    exact ⟨k.data ++ [' '], [], by simp⟩
  have h2 : sanitizeLineChars l ∈ (splitOnNL d.data).map sanitizeLineChars :=
    List.mem_map_of_mem _ hl
  exact chunkIn_trans h1 (chunkIn_joinNL_of_mem h2)

theorem sanitize_no_secret (d v : String) (hne : v.data ≠ []) (hnl : '\n' ∉ v.data)
    (honly : ∀ l ∈ splitOnNL d.data, chunkIn v.data l → (matchKey l).isSome)
    (hnp : ∀ k ∈ sensitiveKeys,
      ¬ chunkIn v.data (k.data ++ (" " ++ privateDataPlaceholder).data)) :
    ¬ strContains (Sanitize d) v := by
  intro h
  rw [strContains, sanitize_data] at h
  obtain ⟨l', hl'mem, hch⟩ := chunkIn_joinNL_elim hne hnl _ h
  obtain ⟨l, hlmem, rfl⟩ := List.mem_map.mp hl'mem
  cases hmk : matchKey l with
  | some k =>
    have hkmem : k ∈ sensitiveKeys := List.mem_of_find?_eq_some hmk
    apply hnp k hkmem
    simpa [sanitizeLineChars, hmk] using hch
  | none =>
    have hs := honly l hlmem (by simpa [sanitizeLineChars, hmk] using hch)
    simp [hmk] at hs

theorem sanitize_id (s : String) (h : ∀ l ∈ splitOnNL s.data, matchKey l = none) :
    Sanitize s = s := by
  have hmap : (splitOnNL s.data).map sanitizeLineChars = splitOnNL s.data :=
    (List.map_congr_left (fun l hl => by simp [sanitizeLineChars, h l hl])).trans
      (List.map_id _)
  unfold Sanitize
  rw [hmap, joinNL_splitOnNL]

theorem roundMs_nonneg (ns : Int) (h : 0 ≤ ns) : 0 ≤ roundMs ns := by
  unfold roundMs
  split
  · omega
  · split
    · omega
    · split <;> omega

theorem roundMs_nearest (ns : Int) :
    (2 * (1000000 * roundMs ns - ns)).natAbs ≤ 1000000 := by
  unfold roundMs
  split
  · omega
  · split
    · omega
    · split <;> omega

theorem sext (a b : String) (h : a.data = b.data) : a = b :=
  congrArg String.mk h

theorem roundTrip_eq {σ : Type} (L : Logger σ) (rt : Request → RTResult)
    (o1 o2 : Option String) (s e : Nat) (req : Request) (log : σ) :
    RoundTrip L rt o1 o2 s e req log =
      match rt (dumpRequest L o1 req s log).1 with
      | RTResult.failure r err => ((r, some err), (dumpRequest L o1 req s log).2)
      | RTResult.success resp =>
        ((some (dumpResponse L o2 resp s e (dumpRequest L o1 req s log).2).1, none),
         (dumpResponse L o2 resp s e (dumpRequest L o1 req s log).2).2) := rfl

/-- The full serialized request dump when the body is displayed. -/
def reqDumpFull (req : Request) : String := req.headText ++ req.body.readRemaining

/-- C1: if the wrapped round-tripper returns a non-nil error, `RoundTrip`
returns that error to the caller unchanged, and no response trace is
written to the log sink: the final sink state is exactly the state left by
the request-side dump, so `dumpResponse` is never invoked on that call. -/
theorem roundTrip_transport_error {σ : Type} (L : Logger σ) (rt : Request → RTResult)
    (o1 o2 : Option String) (s e : Nat) (req : Request) (log : σ)
    (r : Option Response) (err : String)
    (h : rt (dumpRequest L o1 req s log).1 = RTResult.failure r err) :
    RoundTrip L rt o1 o2 s e req log = ((r, some err), (dumpRequest L o1 req s log).2) := by
  rw [roundTrip_eq, h]

/-- C10: on a non-nil error from the wrapped round-tripper, the response
value `RoundTrip` returns alongside that error is exactly the response
value the wrapped round-tripper produced — passed through as-is, not
replaced with nil. -/
theorem roundTrip_error_resp_passthrough {σ : Type} (L : Logger σ)
    (rt : Request → RTResult) (o1 o2 : Option String) (s e : Nat) (req : Request)
    (log : σ) (r : Option Response) (err : String)
    (h : rt (dumpRequest L o1 req s log).1 = RTResult.failure r err) :
    (RoundTrip L rt o1 o2 s e req log).1 = (r, some err) := by
  rw [roundTrip_eq, h]

/-- C5: when the wrapped round-tripper succeeds, the request forwarded to
it is the caller's request unmodified (for a fresh, unread body stream),
and `RoundTrip` returns the round-tripper's response object and a nil
error unmodified (for a fresh response body stream). -/
theorem roundTrip_success_passthrough {σ : Type} (L : Logger σ)
    (rt : Request → RTResult) (o1 o2 : Option String) (s e : Nat) (req : Request)
    (log : σ) (resp : Response)
    (hb : req.body.pos = 0) (hrb : resp.body.pos = 0)
    (h : rt req = RTResult.success resp) :
    (dumpRequest L o1 req s log).1 = req ∧
    (RoundTrip L rt o1 o2 s e req log).1 = (some resp, none) := by
  have h1 : (dumpRequest L o1 req s log).1 = req := by
    rw [dumpRequest_fst, reqAfterDump_pos_zero _ _ hb]
  refine ⟨h1, ?_⟩
  rw [roundTrip_eq, h1, h]
  simp [dumpResponse_fst, respAfterDump_pos_zero _ _ hrb]

/-- C8: the (response, error) pair returned by `RoundTrip` is independent
of the log sink: running the call with any two sinks, over any sink state
types and initial states, yields the same caller-visible result. -/
theorem roundTrip_sink_independent {σ1 σ2 : Type} (L1 : Logger σ1) (L2 : Logger σ2)
    (rt : Request → RTResult) (o1 o2 : Option String) (s e : Nat) (req : Request)
    (log1 : σ1) (log2 : σ2) :
    (RoundTrip L1 rt o1 o2 s e req log1).1 = (RoundTrip L2 rt o1 o2 s e req log2).1 := by
  rw [roundTrip_eq, roundTrip_eq, dumpRequest_fst, dumpRequest_fst]
  cases hr : rt (reqAfterDump o1 req) with
  | failure r err => rfl
  | success resp => simp [dumpResponse_fst]

/-- C4: a failure of request or response serialization is non-fatal and
invisible to the caller: the caller-visible result equals the result of
the same call with no dump failure (the request is still forwarded and on
success the original response and nil error are still returned); each
failure logs one localized diagnostic line; and the two dump failure
modes affect only their own write, independently of each other and of the
wrapped call's outcome. -/
theorem dump_failures_invisible {σ : Type} (L : Logger σ) (rt : Request → RTResult)
    (o1 o2 : Option String) (s e : Nat) (req : Request) (log : σ)
    (hb : req.body.pos = 0)
    (hrt : ∀ resp, rt req = RTResult.success resp → resp.body.pos = 0) :
    (RoundTrip L rt o1 o2 s e req log).1 = (RoundTrip L rt none none s e req log).1 ∧
    (∀ e1 (lg : σ), (dumpRequest L (some e1) req s lg).2 = L.printf lg (reqDumpErrEntry e1)) ∧
    (∀ e2 (res : Response) (lg : σ),
      (dumpResponse L (some e2) res s e lg).2 = L.printf lg (respDumpErrEntry e2)) := by
  refine ⟨?_, fun e1 lg => dumpRequest_log_err L e1 req s lg,
    fun e2 res lg => dumpResponse_log_err L e2 res s e lg⟩
  have h1 : ∀ o : Option String, (dumpRequest L o req s log).1 = req := fun o => by
    rw [dumpRequest_fst, reqAfterDump_pos_zero _ _ hb]
  rw [roundTrip_eq, roundTrip_eq, h1, h1]
  cases hr : rt req with
  | failure r err => rfl
  | success resp =>
    have hz := hrt resp hr
    simp [dumpResponse_fst, respAfterDump_pos_zero _ _ hz]

/-- C6: dumping never leaves a single-use stream exhausted: after either
dump the full readable content of the inspected body is unchanged (so the
wrapped round-tripper can still read the forwarded request body), and on
success the response `RoundTrip` hands back to the caller still has the
round-tripper's response body content fully readable. -/
theorem dump_restores_bodies {σ : Type} (L : Logger σ) :
    (∀ (o : Option String) req s (log : σ),
      ((dumpRequest L o req s log).1).body.readRemaining = req.body.readRemaining) ∧
    (∀ (o : Option String) res s e (log : σ),
      ((dumpResponse L o res s e log).1).body.readRemaining = res.body.readRemaining) ∧
    (∀ (rt : Request → RTResult) (o1 o2 : Option String) (s e : Nat) req (log : σ) resp,
      rt (dumpRequest L o1 req s log).1 = RTResult.success resp →
      ∃ resp', (RoundTrip L rt o1 o2 s e req log).1 = (some resp', none) ∧
        resp'.body.readRemaining = resp.body.readRemaining) := by
  refine ⟨fun o req s log => ?_, fun o res s e log => ?_,
    fun rt o1 o2 s e req log resp h => ?_⟩
  · rw [dumpRequest_fst, reqAfterDump_readRemaining]
  · rw [dumpResponse_fst, respAfterDump_readRemaining]
  · refine ⟨respAfterDump o2 resp, ?_, respAfterDump_readRemaining o2 resp⟩
    rw [roundTrip_eq, h]
    simp [dumpResponse_fst]

/-- C7: for a successful call the response trace entry reports the elapsed
time as `roundMs(end - start)` milliseconds — the `%.0f` rendering of
`end.Sub(start).Seconds()*1000`, with `start` captured at the top of
`RoundTrip` and `end` captured after the wrapped call returns — which is
non-negative whenever `start ≤ end` and is within half a millisecond of
the exact elapsed time (nearest-millisecond rounding, no decimals). -/
theorem response_trace_elapsed (rt : Request → RTResult) (o1 : Option String)
    (s e : Nat) (req : Request) (log : List String) (resp : Response)
    (hse : s ≤ e)
    (h : rt (dumpRequest listLogger o1 req s log).1 = RTResult.success resp) :
    (RoundTrip listLogger rt o1 none s e req log).2 =
      (dumpRequest listLogger o1 req s log).2 ++
        [respTraceEntry e (fmtMs ((e : Int) - (s : Int)))
          (Sanitize (resp.headText ++ resp.body.readRemaining))] ∧
    0 ≤ roundMs ((e : Int) - (s : Int)) ∧
    (2 * (1000000 * roundMs ((e : Int) - (s : Int)) - ((e : Int) - (s : Int)))).natAbs
      ≤ 1000000 := by
  refine ⟨?_, roundMs_nonneg _ (by omega), roundMs_nearest _⟩
  rw [roundTrip_eq, h]
  simp [dumpResponse_log_ok]

/-- C2: the emitted request trace contains the serialized body if and only
if the Content-Type does not contain "multipart/form-data". When the body
is displayed, the single trace entry is built from the dump of head and
body and (when redaction leaves that dump unchanged) contains the body
text; when the body is suppressed, the trace entries are independent of
the body entirely, and the literal `[MULTIPART/FORM-DATA CONTENT HIDDEN]`
marker line is appended in place of the body. -/
theorem request_trace_body_iff (req : Request) (s : Nat) (log : List String) :
    (isMultipart req = false →
      (dumpRequest listLogger none req s log).2 =
        log ++ [reqTraceEntry s (Sanitize (reqDumpFull req))] ∧
      (Sanitize (reqDumpFull req) = reqDumpFull req →
        strContains (reqTraceEntry s (Sanitize (reqDumpFull req)))
          req.body.readRemaining)) ∧
    (isMultipart req = true →
      ∀ b : ByteStream,
        (dumpRequest listLogger none { req with body := b } s log).2 =
          log ++ [reqTraceEntry s (Sanitize req.headText), markerEntry]) := by
  constructor
  · intro hm
    refine ⟨dumpRequest_log_plain req s log hm, fun hid => ?_⟩
    rw [hid]
    refine strContains_of_parts
      ("\n" ++ HeaderColor (T "REQUEST:" []) ++ " [" ++ rfc3339 s ++ "]\n" ++ req.headText)
      req.body.readRemaining "\n" _ ?_
    apply sext
    simp [reqTraceEntry, reqDumpFull]
  · intro hm b
    have hm' : isMultipart { req with body := b } = true := hm
    rw [dumpRequest_log_multipart _ s log hm']
    rfl

/-- C9: for a multipart request whose serialization fails, neither the
request dump nor the `[MULTIPART/FORM-DATA CONTENT HIDDEN]` marker line is
written — the only entry the sink receives is the localized diagnostic
line, so the marker is emitted only after a successful request dump. -/
theorem multipart_dump_failure_no_marker (req : Request) (e1 : String) (s : Nat)
    (log : List String) (hm : isMultipart req = true) :
    (dumpRequest listLogger (some e1) req s log).2 = log ++ [reqDumpErrEntry e1] ∧
    markerEntry ∉ ((dumpRequest listLogger (some e1) req s log).2).drop log.length := by
  have h1 : (dumpRequest listLogger (some e1) req s log).2 = log ++ [reqDumpErrEntry e1] :=
    dumpRequest_log_err listLogger e1 req s log
  refine ⟨h1, ?_⟩
  rw [h1, List.drop_left]
  simp [reqDumpErrEntry, markerEntry, T]

/-- C3: every dump written to the sink has the redaction function applied
first — each trace entry is built from `Sanitize` of the dump text — and
the modelled redaction replaces every sensitive match with the fixed
placeholder `[PRIVATE DATA HIDDEN]`: whenever a dump line matches a
sensitive pattern the written trace contains the placeholder, and a
sensitive value occurring only in matching lines never appears in the
sanitized output. -/
theorem redaction_applied_before_write :
    (∀ req s (log : List String), isMultipart req = false →
      (dumpRequest listLogger none req s log).2 =
        log ++ [reqTraceEntry s (Sanitize (reqDumpFull req))]) ∧
    (∀ req s (log : List String), isMultipart req = true →
      (dumpRequest listLogger none req s log).2 =
        log ++ [reqTraceEntry s (Sanitize req.headText), markerEntry]) ∧
    (∀ res s e (log : List String),
      (dumpResponse listLogger none res s e log).2 =
        log ++ [respTraceEntry e (fmtMs ((e : Int) - (s : Int)))
          (Sanitize (res.headText ++ res.body.readRemaining))]) ∧
    (∀ d (l : List Char), l ∈ splitOnNL d.data → (matchKey l).isSome →
      strContains (Sanitize d) privateDataPlaceholder) ∧
    (∀ d v, v.data ≠ [] → '\n' ∉ v.data →
      (∀ l ∈ splitOnNL d.data, chunkIn v.data l → (matchKey l).isSome) →
      (∀ k ∈ sensitiveKeys,
        ¬ chunkIn v.data (k.data ++ (" " ++ privateDataPlaceholder).data)) →
      ¬ strContains (Sanitize d) v) :=
  ⟨fun req s log hm => dumpRequest_log_plain req s log hm,
   fun req s log hm => dumpRequest_log_multipart req s log hm,
   fun res s e log => dumpResponse_log_ok res s e log,
   fun d l hl hk => sanitize_placeholder d l hl hk,
   fun d v hne hnl honly hnp => sanitize_no_secret d v hne hnl honly hnp⟩

def reqW : Request :=
  { method := "POST", url := "/login",
    headers := [("Content-Type", "application/x-www-form-urlencoded")],
    body := ⟨"a=1&b=2", 0⟩ }

def reqMP : Request :=
  { method := "POST", url := "/upload",
    headers := [("Content-Type", "multipart/form-data; boundary=x")],
    body := ⟨"FILEDATA", 0⟩ }

def respW : Response :=
  { status := "200 OK", headers := [("Content-Type", "text/plain")],
    body := ⟨"hello", 0⟩ }

def rtOK : Request → RTResult := fun _ => RTResult.success respW

def rtFail : Request → RTResult := fun _ => RTResult.failure none "connection refused"

def rtFailResp : Request → RTResult := fun _ => RTResult.failure (some respW) "server closed"

def dSec : String := "POST /login HTTP/1.1\nAuthorization: Bearer secret123\n\npayload"

/-- Witness for C1 at a concrete failing call. -/
theorem roundTrip_transport_error_witness :
    RoundTrip listLogger rtFail none none 3 9 reqW [] =
      ((none, some "connection refused"), (dumpRequest listLogger none reqW 3 []).2) :=
  roundTrip_transport_error listLogger rtFail none none 3 9 reqW []
    none "connection refused" rfl

/-- Witness for C10: the wrapped round-tripper errors while also producing
a non-nil response, and that response is passed through. -/
theorem roundTrip_error_resp_passthrough_witness :
    (RoundTrip listLogger rtFailResp none none 3 9 reqW []).1 =
      (some respW, some "server closed") :=
  roundTrip_error_resp_passthrough listLogger rtFailResp none none 3 9 reqW []
    (some respW) "server closed" rfl

/-- Witness for C5 at a concrete successful call. -/
theorem roundTrip_success_passthrough_witness :
    (dumpRequest listLogger none reqW 3 []).1 = reqW ∧
    (RoundTrip listLogger rtOK none none 3 9 reqW []).1 = (some respW, none) :=
  roundTrip_success_passthrough listLogger rtOK none none 3 9 reqW [] respW
    rfl rfl rfl

/-- Witness for C4: with both dump oracles failing, the caller-visible
result is the one of the clean run. -/
theorem dump_failures_invisible_witness :
    (RoundTrip listLogger rtOK (some "no dump") (some "bad resp") 3 9 reqW []).1 =
      (RoundTrip listLogger rtOK none none 3 9 reqW []).1 :=
  (dump_failures_invisible listLogger rtOK (some "no dump") (some "bad resp") 3 9 reqW []
    rfl (fun resp hr => by injection hr with h2; subst h2; rfl)).1

/-- Witness for C6 at a concrete successful call. -/
theorem dump_restores_bodies_witness :
    ∃ resp', (RoundTrip listLogger rtOK none none 3 9 reqW []).1 = (some resp', none) ∧
      resp'.body.readRemaining = respW.body.readRemaining :=
  (dump_restores_bodies listLogger).2.2 rtOK none none 3 9 reqW [] respW rfl

/-- Witness for C7 at a concrete successful call with start 2 and end 9. -/
theorem response_trace_elapsed_witness :
    (RoundTrip listLogger rtOK none none 2 9 reqW []).2 =
      (dumpRequest listLogger none reqW 2 []).2 ++
        [respTraceEntry 9 (fmtMs (((9 : Nat) : Int) - ((2 : Nat) : Int)))
          (Sanitize (respW.headText ++ respW.body.readRemaining))] ∧
    0 ≤ roundMs (((9 : Nat) : Int) - ((2 : Nat) : Int)) ∧
    (2 * (1000000 * roundMs (((9 : Nat) : Int) - ((2 : Nat) : Int)) -
      (((9 : Nat) : Int) - ((2 : Nat) : Int)))).natAbs ≤ 1000000 :=
  response_trace_elapsed rtOK none 2 9 reqW [] respW (by omega) rfl

/-- Witness for C2: a plain form-encoded request whose body appears in the
trace, and a multipart request whose trace carries the marker instead. -/
theorem request_trace_body_iff_witness :
    ((dumpRequest listLogger none reqW 3 []).2 =
        [reqTraceEntry 3 (Sanitize (reqDumpFull reqW))] ∧
      strContains (reqTraceEntry 3 (Sanitize (reqDumpFull reqW)))
        reqW.body.readRemaining) ∧
    (dumpRequest listLogger none reqMP 3 []).2 =
      [reqTraceEntry 3 (Sanitize reqMP.headText), markerEntry] := by
  have h := request_trace_body_iff reqW 3 []
  have h2 := request_trace_body_iff reqMP 3 []
  exact ⟨⟨(h.1 (by decide)).1, (h.1 (by decide)).2 (by decide)⟩,
    h2.2 (by decide) reqMP.body⟩

/-- Witness for C3: a dump carrying a bearer token is written with the
placeholder and without the secret. -/
theorem redaction_applied_before_write_witness :
    strContains (Sanitize dSec) privateDataPlaceholder ∧
    ¬ strContains (Sanitize dSec) "secret123" := by
  have h := redaction_applied_before_write
  exact ⟨h.2.2.2.1 dSec ("Authorization: Bearer secret123".data) (by decide) (by decide),
    h.2.2.2.2 dSec "secret123" (by decide) (by decide) (by decide) (by decide)⟩

/-- Witness for C9 at a concrete multipart request with a failing dump. -/
theorem multipart_dump_failure_no_marker_witness :
    (dumpRequest listLogger (some "read error") reqMP 3 []).2 =
      [reqDumpErrEntry "read error"] ∧
    markerEntry ∉ ((dumpRequest listLogger (some "read error") reqMP 3 []).2).drop 0 :=
  multipart_dump_failure_no_marker reqMP "read error" 3 [] (by decide)

end TraceTransport
